import Mathlib

/-!
Verification development for the OpenScrape crawl-orchestration and
extraction pipeline (TypeScript sources under src/).

The TypeScript modules are shallowly embedded as executable Lean
definitions:

- an HTML document is modelled post-parse as a tree of nodes (the parse
  step itself is performed by the external cheerio collaborator; concrete
  markups appearing in theorems are given directly as their parse trees);
- cheerio queries, text extraction and serialization are modelled over
  that tree, with CSS selectors restricted to the selector forms the
  sources actually use (tag, class, id, attribute-equality and
  attribute-presence selectors);
- stateful components (proxy pool, pagination loop, retry loop, job
  lifecycle, websocket subscriptions) are modelled by explicit state
  passing; browser navigation, the scrape of a single URL inside the
  batch loop, and next-URL discovery are oracles passed in as functions;
- JavaScript strings are modelled as Lean Strings, with hand-rolled
  trim/lower-case/split helpers (chosen so that every definition reduces
  inside the kernel);
- fallible code returns Option or Except; sleeping is modelled by
  returning the slept duration.
-/

/-! ## String helpers (JavaScript string semantics) -/

/-- Prefix test on character lists. -/
def startsWithChars : List Char → List Char → Bool
  | [], _ => true
  | _ :: _, [] => false
  | a :: as, b :: bs => a == b && startsWithChars as bs

/-- Infix test on character lists. -/
def hasInfixChars (needle : List Char) : List Char → Bool
  | [] => startsWithChars needle []
  | b :: bs => startsWithChars needle (b :: bs) || hasInfixChars needle bs

/-- JavaScript String.prototype.includes. -/
def strContains (hay needle : String) : Bool :=
  hasInfixChars needle.data hay.data

/-- JavaScript String.prototype.trim (kernel-reducible replacement for
String.trim). -/
def jsTrim (s : String) : String :=
  String.mk (((s.data.dropWhile Char.isWhitespace).reverse.dropWhile
    Char.isWhitespace).reverse)

/-- Lower-case a string character by character (kernel-reducible). -/
def lowerStr (s : String) : String :=
  String.mk (s.data.map Char.toLower)

/-- Case-insensitive infix test, as used by the case-insensitive regular
expressions in the sources. -/
def strContainsCI (hay needle : String) : Bool :=
  strContains (lowerStr hay) (lowerStr needle)

/-- Split a string on space characters (for HTML class attribute lists). -/
def splitOnSpace (s : String) : List String :=
  (s.data.splitOn ' ').map String.mk

/-! ## DOM model

A parsed HTML document as produced by cheerio.load: a tree of element and
text nodes. Attribute lists are in document order. -/

inductive Node where
  | text (s : String)
  | element (tag : String) (attrs : List (String × String)) (children : List Node)

/-- First value of an attribute in an attribute list. -/
def attrLookup (attrs : List (String × String)) (name : String) : Option String :=
  match attrs with
  | [] => none
  | (k, v) :: rest => if k = name then some v else attrLookup rest name

/-- Attribute of a node (none on text nodes), as cheerio attr. -/
def Node.attr? : Node → String → Option String
  | .text _, _ => none
  | .element _ attrs _, name => attrLookup attrs name

/-- The class attribute of a node split into class names. -/
def classListOf (n : Node) : List String :=
  match n.attr? "class" with
  | none => []
  | some s => splitOnSpace s

/-- Whether a node is an element node. -/
def Node.isElem : Node → Bool
  | .text _ => false
  | .element _ _ _ => true

/-- Tag name of a node (empty for text nodes). -/
def Node.tagOf : Node → String
  | .text _ => ""
  | .element t _ _ => t

/-- Child list of a node. -/
def Node.childrenOf : Node → List Node
  | .text _ => []
  | .element _ _ cs => cs

/-- Element children of a node, as cheerio children(). -/
def Node.elemChildren (n : Node) : List Node :=
  n.childrenOf.filter Node.isElem

/-- The CSS selector forms used by the OpenScrape sources. -/
inductive Selector where
  | tag (t : String)
  | cls (c : String)
  | idSel (i : String)
  | tagAttrEq (t a v : String)
  | attrEq (a v : String)
  | tagHasAttr (t a : String)

/-- Whether a selector matches a node. -/
def Selector.matches : Selector → Node → Bool
  | _, .text _ => false
  | .tag t, .element t2 _ _ => t == t2
  | .cls c, n => (classListOf n).contains c
  | .idSel i, n => n.attr? "id" == some i
  | .tagAttrEq t a v, n => n.tagOf == t && n.attr? a == some v
  | .attrEq a v, n => n.attr? a == some v
  | .tagHasAttr t a, n => n.tagOf == t && (n.attr? a).isSome

mutual
/-- All nodes matching a selector, in document (preorder) order; the
model of a cheerio query over a document. -/
def selectAll (sel : Selector) : Node → List Node
  | .text _ => []
  | .element t a cs =>
      (if sel.matches (.element t a cs) then [Node.element t a cs] else []) ++
        selectAllList sel cs

def selectAllList (sel : Selector) : List Node → List Node
  | [] => []
  | c :: cs => selectAll sel c ++ selectAllList sel cs
end

mutual
/-- Concatenated descendant text of a node, as cheerio text(). -/
def nodeText : Node → String
  | .text s => s
  | .element _ _ cs => nodeListText cs

def nodeListText : List Node → String
  | [] => ""
  | c :: cs => nodeText c ++ nodeListText cs
end

mutual
/-- Serialize a node back to markup, as cheerio html(). -/
def serializeNode : Node → String
  | .text s => s
  | .element t attrs cs =>
      "<" ++ t ++ serializeAttrs attrs ++ ">" ++ serializeList cs ++ "</" ++ t ++ ">"

def serializeAttrs : List (String × String) → String
  | [] => ""
  | (k, v) :: rest => " " ++ k ++ "=" ++ "\"" ++ v ++ "\"" ++ serializeAttrs rest

def serializeList : List Node → String
  | [] => ""
  | c :: cs => serializeNode c ++ serializeList cs
end

/-- Inner HTML of a node (serialization of its children). -/
def innerHtml (n : Node) : String :=
  serializeList n.childrenOf

/-- Whether a node is a script, style or noscript element. -/
def isSSN : Node → Bool
  | .text _ => false
  | .element t _ _ => t == "script" || t == "style" || t == "noscript"

mutual
/-- Remove script, style and noscript elements everywhere below a node,
as the removals performed in extractor.ts (src/src/extractor.ts). -/
def stripSSN : Node → Node
  | .text s => .text s
  | .element t a cs => .element t a (stripSSNList cs)

def stripSSNList : List Node → List Node
  | [] => []
  | c :: cs => (if isSSN c then [] else [stripSSN c]) ++ stripSSNList cs
end

/-- First element matched by a cheerio query, as query.first(). -/
def selectFirst (doc : Node) (sel : Selector) : Option Node :=
  (selectAll sel doc).head?

/-- The body element of a document. -/
def bodyOf (doc : Node) : Option Node :=
  selectFirst doc (.tag "body")

/-! ## Extractor (src/src/extractor.ts)

The DataExtractor class. The turndown markdown rendering is an external
library call and is not modelled; every other field of the extraction
result is. -/

/-- A value stored in the metadata map: custom-rule transforms in the
sources return arbitrary JavaScript values, of which the claims use
strings and numbers (parseInt may also produce NaN). -/
inductive MetaVal where
  | str (s : String)
  | num (n : Int)
  | nan
deriving DecidableEq

/-- A custom extraction rule of an ExtractionSchema (src/src/types.ts). -/
structure CustomRule where
  name : String
  selector : Selector
  attrName : Option String
  transform : Option (String → MetaVal)

/-- ExtractionSchema (src/src/types.ts); the images selector is declared
there but never read by the extractor, so it is omitted. -/
structure ExtractionSchema where
  title : Option Selector
  author : Option Selector
  publishDate : Option Selector
  content : Option Selector
  custom : Option (List CustomRule)

/-- ScrapedData (src/src/types.ts), restricted to the fields the claims
are about; markdown/cleanedHtml/text/table fields are omitted. -/
structure ScrapedData where
  url : String
  title : Option String := none
  author : Option String := none
  publishDate : Option String := none
  content : String := ""
  images : Option (List String) := none
  metadata : Option (List (String × MetaVal)) := none
  timestamp : String := ""

/-- JavaScript a or b for string-valued operands: a is kept when it is a
defined, non-empty string, otherwise b is evaluated. -/
def jsOr : Option String → Option String → Option String
  | some s, b => if s = "" then b else some s
  | none, b => b

/-- Fold a fallback chain of JavaScript string values with jsOr, ending
in undefined; models the v1 or v2 or ... or undefined chains of
extractTitle, extractAuthor and extractPublishDate. -/
def chainSteps : List (Option String) → Option String
  | [] => none
  | v :: rest => jsOr v (chainSteps rest)

/-- Attribute of the first match of a query, as query.attr(name). -/
def attrOfFirst (doc : Node) (sel : Selector) (name : String) : Option String :=
  (selectFirst doc sel).bind (fun el => el.attr? name)

/-- Concatenated text of every match of a query, as query.text(). -/
def textOfAll (doc : Node) (sel : Selector) : String :=
  String.join ((selectAll sel doc).map nodeText)

/-- Text of the first match of a query, as query.first().text(). -/
def textOfFirst (doc : Node) (sel : Selector) : String :=
  ((selectFirst doc sel).map nodeText).getD ""

/-- The steps of the title fallback chain of DataExtractor.extractTitle. -/
def titleSteps (doc : Node) : List (Option String) :=
  [attrOfFirst doc (.tagAttrEq "meta" "property" "og:title") "content",
   some (textOfAll doc (.tag "title")),
   some (textOfFirst doc (.tag "h1"))]

/-- DataExtractor.extractTitle. -/
def extractTitle (doc : Node) : Option String :=
  chainSteps (titleSteps doc)

/-- The steps of the author fallback chain of DataExtractor.extractAuthor. -/
def authorSteps (doc : Node) : List (Option String) :=
  [attrOfFirst doc (.tagAttrEq "meta" "name" "author") "content",
   attrOfFirst doc (.tagAttrEq "meta" "property" "article:author") "content",
   some (textOfAll doc (.attrEq "rel" "author")),
   some (textOfFirst doc (.cls "author"))]

/-- DataExtractor.extractAuthor. -/
def extractAuthor (doc : Node) : Option String :=
  chainSteps (authorSteps doc)

/-- The steps of the publish-date fallback chain of
DataExtractor.extractPublishDate. -/
def dateSteps (doc : Node) : List (Option String) :=
  [attrOfFirst doc (.tagAttrEq "meta" "property" "article:published_time") "content",
   attrOfFirst doc (.tagHasAttr "time" "datetime") "datetime",
   attrOfFirst doc (.tag "time") "datetime",
   some (textOfAll doc (.cls "published")),
   some (textOfFirst doc (.cls "date"))]

/-- DataExtractor.extractPublishDate. -/
def extractPublishDate (doc : Node) : Option String :=
  chainSteps (dateSteps doc)

/-- DataExtractor.extractBySelector: first match of the selector, then
either the attribute value or the trimmed text, empty values becoming
undefined. -/
def extractBySelector (doc : Node) (selector : Selector)
    (attrName : Option String) : Option String :=
  match selectFirst doc selector with
  | none => none
  | some el =>
    match attrName with
    | some a =>
        match el.attr? a with
        | some v => if v = "" then none else some v
        | none => none
    | none =>
        let t := jsTrim (nodeText el)
        if t = "" then none else some t

/-- Assign a key in a JavaScript-object-backed metadata map: replace the
existing entry or append a new one. -/
def setKey : List (String × MetaVal) → String → MetaVal → List (String × MetaVal)
  | [], k, v => [(k, v)]
  | (k2, v2) :: rest, k, v =>
      if k2 = k then (k, v) :: rest else (k2, v2) :: setKey rest k v

/-- Apply an optional custom-rule transform, as
rule.transform ? rule.transform(value) : value. -/
def applyTransform : Option (String → MetaVal) → String → MetaVal
  | some f, v => f v
  | none, v => .str v

/-- The custom-rule loop of DataExtractor.extract: rules whose selector
yields a defined value contribute a metadata entry, the rest contribute
nothing. -/
def customMetadata (doc : Node) : List CustomRule → List (String × MetaVal) →
    List (String × MetaVal)
  | [], m => m
  | r :: rest, m =>
      match extractBySelector doc r.selector r.attrName with
      | some v => customMetadata doc rest (setKey m r.name (applyTransform r.transform v))
      | none => customMetadata doc rest m

/-- The ordered list of content-area selectors tried by
DataExtractor.extract. -/
def articleSelectors : List Selector :=
  [.tag "article", .attrEq "role" "article", .tag "main", .attrEq "role" "main",
   .cls "article", .cls "post", .cls "content", .cls "entry-content",
   .idSel "content", .idSel "main", .cls "main-content", .cls "page-content"]

/-- The selector loop of DataExtractor.extract: first listed selector
whose first match has trimmed text longer than 50 characters. -/
def firstBigSelector (doc : Node) : List Selector → Option Node
  | [] => none
  | s :: rest =>
      match selectFirst doc s with
      | some el =>
          if (jsTrim (nodeText el)).length > 50 then some el
          else firstBigSelector doc rest
      | none => firstBigSelector doc rest

/-- The map-then-filter over body children of DataExtractor.extract:
inner markup of each element child, children with blank markup dropped.
The result is kept as a list of per-child node fragments (whose
serializations are the childrenHtml strings of the source). -/
def childrenHtmlFrags (kids : List Node) : List (List Node) :=
  kids.filterMap (fun el =>
    let f := el.childrenOf
    let h := serializeList f
    if h ≠ "" && jsTrim h ≠ "" then some f else none)

/-- Join the per-child fragments with newline separators, as
childrenHtml.join of the source; re-parsing the joined string yields
exactly this fragment. -/
def joinFragsNl (frags : List (List Node)) : List Node :=
  List.intercalate [Node.text "\n"] frags

/-- The main-content selection of DataExtractor.extract up to (and
including) the default-extraction block: the schema content selector is
tried first, and when its markup is missing or shorter than 50 trimmed
characters the fixed selector list and then the body are consulted.
The accumulating extractedContent string of the source is carried as a
node fragment whose serialization is that string. -/
def contentAfterDefault (doc : Node) (schemaSel : Option Selector) : List Node :=
  let ec0 : List Node :=
    match schemaSel with
    | none => []
    | some sel =>
        match selectFirst doc sel with
        | some el => el.childrenOf
        | none => []
  if serializeList ec0 = "" ∨ (jsTrim (serializeList ec0)).length < 50 then
    let fresh := stripSSN doc
    match firstBigSelector fresh articleSelectors with
    | some el => el.childrenOf
    | none =>
        match bodyOf fresh with
        | some body =>
            if (jsTrim (nodeText body)).length > 50 then
              let ec1 : List Node :=
                if body.elemChildren.length > 0 then
                  let frags := childrenHtmlFrags body.elemChildren
                  if frags.length > 0 then joinFragsNl frags else ec0
                else ec0
              if serializeList ec1 = "" ∨ (jsTrim (serializeList ec1)).length = 0 then
                body.childrenOf
              else ec1
            else ec0
        | none => ec0
  else ec0

/-- The last-resort block of DataExtractor.extract: when the selected
content is still blank, reload the document, strip scripts and styles and
take the body children (or the body markup when no child qualifies). -/
def contentAfterLastResort (doc : Node) (ec : List Node) : List Node :=
  if serializeList ec = "" ∨ (jsTrim (serializeList ec)).length = 0 then
    let fb := stripSSN doc
    match bodyOf fb with
    | some body =>
        if body.elemChildren.length > 0 then
          let frags := childrenHtmlFrags body.elemChildren
          if frags.length > 0 then joinFragsNl frags else body.childrenOf
        else body.childrenOf
    | none => ec
  else ec

/-- The final content assignment of DataExtractor.extract: keep the
selected markup, then defensively re-strip scripts, styles and noscript
blocks, falling back to the unstripped markup when stripping yields a
blank result. -/
def finalContent (ec : List Node) : String :=
  let s := serializeList ec
  if s ≠ "" ∧ (jsTrim s).length > 0 then
    let cleaned := serializeList (stripSSNList ec)
    if cleaned ≠ "" ∧ (jsTrim cleaned).length > 0 then cleaned else s
  else ""

/-- The complete main-content pipeline of DataExtractor.extract, from a
parsed document and optional schema content selector to the content
string of the result. -/
def extractContent (doc : Node) (schemaSel : Option Selector) : String :=
  finalContent (contentAfterLastResort doc (contentAfterDefault doc schemaSel))

/-- DataExtractor.extractImages: src (or data-src fallback) of every img
element. -/
def extractImagesList (doc : Node) : List String :=
  (selectAll (.tag "img") doc).filterMap (fun el =>
    jsOr (el.attr? "src") (jsOr (el.attr? "data-src") none))

/-- JavaScript parseInt(value, 10): optional whitespace, optional sign,
then leading decimal digits; NaN when no digit is present. -/
def jsParseInt (s : String) : MetaVal :=
  let cs := s.data.dropWhile Char.isWhitespace
  let signed : Bool × List Char :=
    match cs with
    | '-' :: r => (true, r)
    | '+' :: r => (false, r)
    | r => (false, r)
  let ds := signed.2.takeWhile Char.isDigit
  if ds.isEmpty then .nan
  else
    let v : Nat := ds.foldl (fun acc c => acc * 10 + (c.toNat - 48)) 0
    .num (if signed.1 then -(v : Int) else (v : Int))

/-- DataExtractor.extract assembled: title, author and publish date via
schema selector or fallback chain, the content pipeline, image
collection, and the custom-rule metadata loop. The timestamp is passed
in (new Date().toISOString() in the source); the markdown rendering
(external turndown library) is not modelled. -/
def extract (schema : Option ExtractionSchema) (doc : Node) (url : String)
    (extractImgs : Bool) (now : String) : ScrapedData :=
  let title :=
    match schema.bind (fun s => s.title) with
    | some sel => extractBySelector doc sel none
    | none => extractTitle doc
  let author :=
    match schema.bind (fun s => s.author) with
    | some sel => extractBySelector doc sel none
    | none => extractAuthor doc
  let publishDate :=
    match schema.bind (fun s => s.publishDate) with
    | some sel => extractBySelector doc sel none
    | none => extractPublishDate doc
  let content := extractContent doc (schema.bind (fun s => s.content))
  let images := if extractImgs then some (extractImagesList doc) else none
  let metadata :=
    match schema.bind (fun s => s.custom) with
    | some rules => some (customMetadata doc rules [])
    | none => none
  { url := url, title := title, author := author, publishDate := publishDate,
    content := content, images := images, metadata := metadata, timestamp := now }

/-! ## Proxy pool (src/src/proxy.ts, shipped appended to formatters.ts)

parseProxyString delegates URL parsing to the runtime URL class; the pool
is modelled over the already-parsed config list, which
normalizeProxyInput produces from the input strings as an order- and
length-preserving map. -/

/-- PlaywrightProxyConfig (src/src/proxy.ts). -/
structure PlaywrightProxyConfig where
  server : String
  username : Option String := none
  password : Option String := none
deriving DecidableEq

/-- ProxyPool state: the parsed config list and the rotation index. -/
structure ProxyPool where
  configs : List PlaywrightProxyConfig
  index : Nat

/-- The ProxyPool constructor: fails on an empty config list, otherwise
starts the rotation index at zero. -/
def ProxyPool.make (proxies : List PlaywrightProxyConfig) : Except String ProxyPool :=
  if proxies.length = 0 then .error "At least one proxy is required"
  else .ok { configs := proxies, index := 0 }

/-- ProxyPool.getNext: return the config at index mod size, then advance
the index. -/
def ProxyPool.getNext (p : ProxyPool) : PlaywrightProxyConfig × ProxyPool :=
  (p.configs.getD (p.index % p.configs.length)
    { server := "" },
   { configs := p.configs, index := p.index + 1 })

/-- Pool state after a number of getNext calls. -/
def ProxyPool.afterCalls (p : ProxyPool) : Nat → ProxyPool
  | 0 => p
  | n + 1 => (p.afterCalls n).getNext.2

/-- Value returned by the (n+1)-th getNext call on a pool. -/
def ProxyPool.callResult (p : ProxyPool) (n : Nat) : PlaywrightProxyConfig :=
  ((p.afterCalls n).getNext).1

/-- ProxyPool.reset: rewind the rotation index to zero. -/
def ProxyPool.reset (p : ProxyPool) : ProxyPool :=
  { configs := p.configs, index := 0 }

/-! ## Rate limiter (src/src/rateLimiter.ts) -/

/-- Sleeping is modelled by returning the slept duration in
milliseconds. -/
def sleepMs (ms : Nat) : Nat := ms

/-- RateLimiter.handleBackoff: compute the exponential-backoff delay
capped at maxBackoff and sleep it; the returned number is the slept
duration. Source defaults are maxBackoff 60000 and baseDelay 1000. -/
def handleBackoff (attempt maxBackoff baseDelay : Nat) : Nat :=
  sleepMs (min (baseDelay * 2 ^ attempt) maxBackoff)

/-! ## Pagination traversal (src/src/pagination.ts)

PaginationHandler.handlePagination. Next-URL discovery
(PaginationHandler.findNextUrl) runs against the live browser page, so it
enters the model as an oracle mapping the loop iteration and current URL
to the discovered next URL (or none). -/

/-- The loop body of handlePagination, with fuel maxDepth - depth. -/
def paginationGo (next : Nat → String → Option String) :
    Nat → Nat → String → List String → List String → List String
  | 0, _, _, _, urls => urls
  | fuel + 1, depth, currentUrl, visited, urls =>
      if visited.contains currentUrl then urls
      else
        let visited2 := currentUrl :: visited
        let urls2 := urls ++ [currentUrl]
        match next depth currentUrl with
        | none => urls2
        | some nextUrl =>
            if visited2.contains nextUrl then urls2
            else paginationGo next fuel (depth + 1) nextUrl visited2 urls2

/-- PaginationHandler.handlePagination: while depth < maxDepth, stop on
an already-visited current URL, otherwise record the current URL and
advance to the discovered next URL unless it is missing or already
visited. visited0 is the visited set the caller passes in. -/
def handlePagination (next : Nat → String → Option String) (maxDepth : Nat)
    (url : String) (visited0 : List String) : List String :=
  paginationGo next maxDepth 0 url visited0 []

/-- The call the orchestrator makes (src/src/scraper.ts lines 128-134):
the visited set is pre-seeded with the origin URL. -/
def scrapePaginationUrls (next : Nat → String → Option String) (maxDepth : Nat)
    (url : String) : List String :=
  handlePagination next maxDepth url [url]

/-! ## Navigation retry loop (src/src/scraper.ts,
OpenScrape.createPageAndNavigate) -/

/-- Outcome of one navigation try, as observed by createPageAndNavigate:
page.goto returned a response with a status, returned null, or threw. -/
inductive NavOutcome where
  | response (status : Nat)
  | noResponse
  | navError (msg : String)

/-- Result of createPageAndNavigate: a page (with the try index that
produced it and the response status, 0 when the response was null), the
rethrown raw navigation error, or the post-loop terminal error naming
the attempt count. -/
inductive NavResult where
  | page (tryIndex : Nat) (status : Nat)
  | rawError (msg : String)
  | exhausted (attempts : Nat)
deriving DecidableEq

/-- RETRYABLE_STATUSES of scraper.ts. -/
def retryableStatuses : List Nat := [403, 429]

/-- RETRYABLE_MESSAGES of scraper.ts: the case-insensitive
timeout-or-deadline pattern. -/
def isRetryableMessage (msg : String) : Bool :=
  strContainsCI msg "timeout" || strContainsCI msg "timed out" ||
    strContainsCI msg "deadline"

/-- The try loop of createPageAndNavigate, with fuel maxTries - tryIndex. -/
def navGo (outcomes : Nat → NavOutcome) (maxTries : Nat) :
    Nat → Nat → NavResult
  | 0, _ => .exhausted maxTries
  | fuel + 1, tryIndex =>
      match outcomes tryIndex with
      | .response st =>
          if retryableStatuses.contains st && tryIndex < maxTries - 1 then
            navGo outcomes maxTries fuel (tryIndex + 1)
          else .page tryIndex st
      | .noResponse => .page tryIndex 0
      | .navError msg =>
          if isRetryableMessage msg && tryIndex < maxTries - 1 then
            navGo outcomes maxTries fuel (tryIndex + 1)
          else .rawError msg

/-- OpenScrape.createPageAndNavigate over a navigation oracle giving the
outcome of each try; numProxies is the length of the resolved proxy
config list. -/
def createPageAndNavigate (outcomes : Nat → NavOutcome) (numProxies : Nat) :
    NavResult :=
  let maxTries := max numProxies 1
  navGo outcomes maxTries maxTries 0

/-- Whether a navigation outcome is retryable in the sense of
createPageAndNavigate: a 403 or 429 response, or an error message
matching the timeout/deadline pattern. -/
def retryableOutcome : NavOutcome → Bool
  | .response st => retryableStatuses.contains st
  | .noResponse => false
  | .navError msg => isRetryableMessage msg

/-! ## Batch crawling (src/src/scraper.ts, OpenScrape.scrapeBatch)

The single-URL scrape (browser navigation, pagination, extraction) is the
oracle; scrapeBatch walks the URL list sequentially and converts a
per-URL failure into a placeholder result. -/

/-- OpenScrape.scrapeBatch: one result per URL in input order; a failed
scrape contributes a placeholder with empty content and the error message
in its metadata, and the loop continues. -/
def scrapeBatch (scrape : String → Except String ScrapedData) (now : String) :
    List String → List ScrapedData
  | [] => []
  | url :: rest =>
      (match scrape url with
       | .ok data => data
       | .error msg =>
           { url := url, content := "", timestamp := now,
             metadata := some [("error", MetaVal.str msg)] }) ::
        scrapeBatch scrape now rest

/-! ## Job lifecycle (src/src/api.ts)

The POST /crawl handler creates a job in the pending state under a fresh
id and invokes processJob exactly once for it; processJob moves it to
processing, awaits the scrape and moves it to the matching terminal
state. Event broadcasting (JSON serialization of plain job data plus
sends to open sockets) cannot throw, so processJob never rejects and the
route-level catch handler never runs; the snapshots below are every
status write the code performs on one job. -/

/-- Job status (src/src/types.ts). -/
inductive JobStatus where
  | pending
  | processing
  | completed
  | failed
deriving DecidableEq

/-- Whether a status is terminal. -/
def terminalStatus : JobStatus → Bool
  | .completed => true
  | .failed => true
  | _ => false

/-- CrawlJob (src/src/types.ts), the result carried as its presence. -/
structure CrawlJob where
  id : String
  url : String
  status : JobStatus
  result : Option ScrapedData := none
  error : Option String := none
  createdAt : String
  completedAt : Option String := none

/-- Job creation in the POST /crawl handler. -/
def createJob (id url now : String) : CrawlJob :=
  { id := id, url := url, status := .pending, createdAt := now }

/-- processJob (src/src/api.ts): the two status writes it performs, as
successive snapshots of the job. -/
def processJobSnapshots (j : CrawlJob) (outcome : Except String ScrapedData)
    (now : String) : List CrawlJob :=
  let j1 : CrawlJob :=
    { j with status := .processing }
  let j2 : CrawlJob :=
    match outcome with
    | .ok r => { j1 with status := .completed, result := some r, completedAt := some now }
    | .error msg => { j1 with status := .failed, error := some msg, completedAt := some now }
  [j1, j2]

/-- The full snapshot sequence of one job: creation in pending, then the
processJob writes. -/
def jobLifecycle (id url : String) (outcome : Except String ScrapedData)
    (tCreate tDone : String) : List CrawlJob :=
  createJob id url tCreate :: processJobSnapshots (createJob id url tCreate) outcome tDone

/-! ## WebSocket subscriptions (src/src/websocket.ts)

Clients are identified by opaque ids; jobSubscriptions is the map from
job id to the subscriber set, modelled as an association list of
duplicate-free insertion-ordered lists (a JavaScript Map of Sets). -/

/-- A connected websocket client. -/
abbrev Client := Nat

/-- The jobSubscriptions map. -/
abbrev Subs := List (String × List Client)

/-- Add a client to a subscriber set, as JavaScript Set.add: no effect
when already present. -/
def addClient (l : List Client) (c : Client) : List Client :=
  if l.contains c then l else l ++ [c]

/-- Replace or create the entry of a job id in the map. -/
def setEntry : Subs → String → List Client → Subs
  | [], j, v => [(j, v)]
  | (k, x) :: rest, j, v =>
      if k = j then (j, v) :: rest else (k, x) :: setEntry rest j v

/-- Subscriber set of a job id (empty when absent). -/
def subsOf (s : Subs) (j : String) : List Client :=
  match s.lookup j with
  | some l => l
  | none => []

/-- Client messages understood by the message handler of
attachWebSocketServer, plus connection close and malformed input. -/
inductive WsMsg where
  | subscribe (jobId : String) (c : Client)
  | unsubscribe (jobId : String) (c : Client)
  | close (c : Client)
  | invalid

/-- The message handler of attachWebSocketServer: subscribe creates the
subscriber set on demand and adds the client; unsubscribe deletes the
client from that set; close deletes the client from every set; malformed
messages are ignored. -/
def handleMsg (s : Subs) : WsMsg → Subs
  | .subscribe j c => setEntry s j (addClient (subsOf s j) c)
  | .unsubscribe j c =>
      match s.lookup j with
      | some l => setEntry s j (l.filter (fun x => x ≠ c))
      | none => s
  | .close c => s.map (fun kv => (kv.1, kv.2.filter (fun x => x ≠ c)))
  | .invalid => s

/-- Fold a message sequence over the initially empty subscription map
(server start). -/
def handleMsgs (msgs : List WsMsg) : Subs :=
  msgs.foldl handleMsg []

/-- broadcastJobEvent recipients: every subscriber of the job id (sockets
are modelled as open, so each receives exactly one send of the event
payload). -/
def broadcastRecipients (s : Subs) (j : String) : List Client :=
  subsOf s j

/-! ## Concrete inputs used by the theorems -/

/-- Parse tree of the markup
article(h1 Main Article, p This is the main content.) followed by
nav(Navigation), wrapped by cheerio.load into html/head/body. -/
def docArticleNav : Node :=
  .element "html" [] [
    .element "head" [] [],
    .element "body" [] [
      .element "article" [] [
        .element "h1" [] [.text "Main Article"],
        .element "p" [] [.text "This is the main content."]],
      .element "nav" [] [.text "Navigation"]]]

/-- Document whose title element holds only a space while an h1 holds
real text. -/
def docBlankTitle : Node :=
  .element "html" [] [
    .element "head" [] [.element "title" [] [.text " "]],
    .element "body" [] [.element "h1" [] [.text "Real Title"]]]

/-- Document with no text at all. -/
def docEmptyPage : Node :=
  .element "html" [] [.element "head" [] [], .element "body" [] []]

/-- Parse tree of div class=views holding 1234. -/
def docViews : Node :=
  .element "html" [] [
    .element "head" [] [],
    .element "body" [] [.element "div" [("class", "views")] [.text "1234"]]]

/-- The custom rule of the views example: name views, selector .views,
transform parseInt. -/
def ruleViews : CustomRule :=
  { name := "views", selector := .cls "views", attrName := none,
    transform := some jsParseInt }

/-- Schema holding only the views custom rule. -/
def schemaViews : ExtractionSchema :=
  { title := none, author := none, publishDate := none, content := none,
    custom := some [ruleViews] }

/-- Default ScrapedData used with List.getD. -/
def dfltScraped : ScrapedData :=
  { url := "", content := "", timestamp := "" }

/-- Default CrawlJob used with List.getD. -/
def dfltJob : CrawlJob :=
  createJob "" "" ""

/-- A next-URL oracle describing a three-page next chain ending on
page3. -/
def demoNext (d : Nat) (u : String) : Option String :=
  match d, u with
  | _, "https://example.com/page1" => some "https://example.com/page2"
  | _, "https://example.com/page2" => some "https://example.com/page3"
  | _, _ => none

/-- A scrape oracle that succeeds on url a and fails on everything
else. -/
def demoScrape (u : String) : Except String ScrapedData :=
  if u = "a" then .ok { url := "a", content := "body a", timestamp := "t0" }
  else .error "net down"

/-- Three distinct proxy configs. -/
def demoProxies : List PlaywrightProxyConfig :=
  [{ server := "http://p1:80" }, { server := "http://p2:80" },
   { server := "http://p3:80" }]

/-- A custom rule whose selector matches nothing in docViews. -/
def ruleMissing : CustomRule :=
  { name := "cat", selector := .cls "missing", attrName := none,
    transform := none }

/-- Whether a JavaScript chain-step value is falsy (absent or the empty
string). -/
def stepFalsy (v : Option String) : Bool :=
  v.getD "" == ""

/-! ## Helper lemmas -/

theorem afterCalls_mk (l : List PlaywrightProxyConfig) (k n : Nat) :
    ProxyPool.afterCalls { configs := l, index := k } n =
      { configs := l, index := k + n } := by
  induction n with
  | zero => rfl
  | succ m ih =>
      show (ProxyPool.afterCalls { configs := l, index := k } m).getNext.2 = _
      rw [ih]
      rfl

theorem callResult_fresh (l : List PlaywrightProxyConfig) (n : Nat) :
    ProxyPool.callResult { configs := l, index := 0 } n =
      l.getD (n % l.length) { server := "" } := by
  simp [ProxyPool.callResult, afterCalls_mk, ProxyPool.getNext]

theorem range_map_getD_mod (l : List PlaywrightProxyConfig) :
    (List.range l.length).map
        (fun i => l.getD (i % l.length) { server := "" }) = l := by
  apply List.ext_getElem
  · simp
  · intro i h1 h2
    simp only [List.getElem_map, List.getElem_range]
    rw [Nat.mod_eq_of_lt (by simpa using h2)]
    exact List.getD_eq_getElem l _ (by simpa using h2)

/-- C5: a proxy pool freshly constructed from N parsed proxy configs
(normalizeProxyInput maps the N input strings to N configs in order)
returns each config exactly once and in input order across the first N
getNext calls, and the call after those returns the first config again. -/
theorem proxyPool_round_robin (l : List PlaywrightProxyConfig) (p : ProxyPool)
    (hp : ProxyPool.make l = Except.ok p) :
    ((List.range l.length).map p.callResult = l) ∧
    p.callResult l.length = l.getD 0 { server := "" } := by
  unfold ProxyPool.make at hp
  by_cases h0 : l.length = 0
  · rw [if_pos h0] at hp
    exact absurd hp (fun h => by cases h)
  · rw [if_neg h0] at hp
    cases hp
    constructor
    · have : (List.range l.length).map
          (ProxyPool.callResult { configs := l, index := 0 }) =
          (List.range l.length).map
            (fun i => l.getD (i % l.length) { server := "" }) := by
        apply List.map_congr_left
        intro i _
        exact callResult_fresh l i
      rw [this, range_map_getD_mod]
    · rw [callResult_fresh, Nat.mod_self]

/-- C5 witness: the round-robin property evaluated on a three-proxy
pool. -/
theorem proxyPool_round_robin_witness :
    ((List.range demoProxies.length).map
        (ProxyPool.callResult { configs := demoProxies, index := 0 }) =
      demoProxies) ∧
    ProxyPool.callResult { configs := demoProxies, index := 0 }
        demoProxies.length = demoProxies.getD 0 { server := "" } :=
  proxyPool_round_robin demoProxies { configs := demoProxies, index := 0 } rfl

/-- C8: handleBackoff sleeps exactly min(baseDelay * 2 ^ attempt,
maxDelay) milliseconds, and in particular the three quoted calls sleep
100, 200 and 400 ms. -/
theorem handleBackoff_spec :
    (∀ attempt maxBackoff baseDelay : Nat,
      handleBackoff attempt maxBackoff baseDelay =
        min (baseDelay * 2 ^ attempt) maxBackoff) ∧
    handleBackoff 0 10000 100 = 100 ∧
    handleBackoff 1 10000 100 = 200 ∧
    handleBackoff 2 10000 100 = 400 :=
  ⟨fun _ _ _ => rfl, rfl, rfl, rfl⟩

/-- C2: the pagination traversal, started the way the orchestrator starts
it (visited set pre-seeded with the origin URL, src/src/scraper.ts line
129), returns the empty list for every oracle, depth bound and origin —
never a list containing the origin. Started instead with the empty
visited set (the default parameter of handlePagination itself), the same
loop does return the origin-led page chain, here shown on a three-page
next chain. -/
theorem pagination_preseeded_visited_returns_empty :
    (∀ (next : Nat → String → Option String) (maxDepth : Nat) (url : String),
      scrapePaginationUrls next maxDepth url = []) ∧
    handlePagination demoNext 10 "https://example.com/page1" [] =
      ["https://example.com/page1", "https://example.com/page2",
       "https://example.com/page3"] := by
  constructor
  · intro next maxDepth url
    cases maxDepth with
    | zero => rfl
    | succ m =>
        show paginationGo next (m + 1) 0 url [url] [] = []
        simp [paginationGo]
  · rfl

/-- C1 counterexample: with a single proxy and a navigation try that
yields the retryable HTTP status 403, createPageAndNavigate returns the
page of that try instead of failing with the attempt-count terminal
error. -/
theorem nav_retryable_exhaustion_counterexample :
    createPageAndNavigate (fun _ => NavOutcome.response 403) 1 =
      NavResult.page 0 403 ∧
    createPageAndNavigate (fun _ => NavOutcome.response 403) 1 ≠
      NavResult.exhausted 1 :=
  ⟨rfl, fun h => by cases h⟩

theorem navGo_all_retryable (outcomes : Nat → NavOutcome) (maxTries : Nat)
    (hall : ∀ i, i < maxTries → retryableOutcome (outcomes i) = true) :
    ∀ fuel tryIndex, tryIndex + fuel = maxTries → 0 < fuel →
      ((∀ st, outcomes (maxTries - 1) = NavOutcome.response st →
        navGo outcomes maxTries fuel tryIndex = NavResult.page (maxTries - 1) st) ∧
       (∀ msg, outcomes (maxTries - 1) = NavOutcome.navError msg →
        navGo outcomes maxTries fuel tryIndex = NavResult.rawError msg) ∧
       (∀ k, navGo outcomes maxTries fuel tryIndex ≠ NavResult.exhausted k)) := by
  intro fuel
  induction fuel with
  | zero => intro tryIndex _ hpos; exact absurd hpos (by omega)
  | succ f ih =>
      intro tryIndex hsum _
      have hlt : tryIndex < maxTries := by omega
      cases f with
      | zero =>
          have hlast : tryIndex = maxTries - 1 := by omega
          subst hlast
          have hnotlt : ¬ (maxTries - 1 < maxTries - 1) := by omega
          cases hout : outcomes (maxTries - 1) with
          | response st =>
              refine ⟨fun st2 h2 => ?_, fun msg h2 => ?_, fun k => ?_⟩
              · cases h2
                simp [navGo, hout, hnotlt]
              · cases h2
              · simp [navGo, hout, hnotlt]
          | noResponse =>
              have hretry := hall (maxTries - 1) hlt
              rw [hout] at hretry
              exact absurd hretry (by simp [retryableOutcome])
          | navError msg =>
              refine ⟨fun st2 h2 => ?_, fun msg2 h2 => ?_, fun k => ?_⟩
              · cases h2
              · cases h2
                simp [navGo, hout, hnotlt]
              · simp [navGo, hout, hnotlt]
      | succ f2 =>
          have hmid : tryIndex < maxTries - 1 := by omega
          have hrec := ih (tryIndex + 1) (by omega) (by omega)
          have hstep : navGo outcomes maxTries (f2 + 1 + 1) tryIndex =
              navGo outcomes maxTries (f2 + 1) (tryIndex + 1) := by
            cases hout : outcomes tryIndex with
            | response st =>
                have hc : retryableStatuses.contains st = true := by
                  have h := hall tryIndex hlt
                  rw [hout] at h
                  simpa [retryableOutcome] using h
                have hc2 : st ∈ retryableStatuses := by simpa using hc
                simp [navGo, hout, hc2, hmid]
            | noResponse =>
                have h := hall tryIndex hlt
                rw [hout] at h
                exact absurd h (by simp [retryableOutcome])
            | navError msg =>
                have hc : isRetryableMessage msg = true := by
                  have h := hall tryIndex hlt
                  rw [hout] at h
                  simpa [retryableOutcome] using h
                simp [navGo, hout, hc, hmid]
          rw [hstep]
          exact hrec

/-- C1 amended: when every navigation try yields a retryable outcome,
createPageAndNavigate, after exhausting all max(1, number of proxies)
tries, surfaces the last try outcome directly rather than the
attempt-count terminal error: a retryable HTTP status on the last try
returns that page, a retryable navigation error on the last try is
rethrown raw, and the attempt-count error is unreachable. -/
theorem createPageAndNavigate_exhaustion (outcomes : Nat → NavOutcome)
    (numProxies : Nat)
    (hall : ∀ i, i < max numProxies 1 → retryableOutcome (outcomes i) = true) :
    (∀ st, outcomes (max numProxies 1 - 1) = NavOutcome.response st →
      createPageAndNavigate outcomes numProxies =
        NavResult.page (max numProxies 1 - 1) st) ∧
    (∀ msg, outcomes (max numProxies 1 - 1) = NavOutcome.navError msg →
      createPageAndNavigate outcomes numProxies = NavResult.rawError msg) ∧
    (∀ k, createPageAndNavigate outcomes numProxies ≠ NavResult.exhausted k) :=
  navGo_all_retryable outcomes (max numProxies 1) hall (max numProxies 1) 0
    (by omega) (by omega)

/-- C1 witness: two proxies whose navigations both time out; the raw
timeout error of the second try is the result. -/
theorem createPageAndNavigate_exhaustion_witness :
    createPageAndNavigate (fun _ => NavOutcome.navError "Timeout 30000ms exceeded") 2 =
      NavResult.rawError "Timeout 30000ms exceeded" :=
  (createPageAndNavigate_exhaustion
      (fun _ => NavOutcome.navError "Timeout 30000ms exceeded") 2
      (fun _ _ => rfl)).2.1 "Timeout 30000ms exceeded" rfl

/-- C3: on the quoted markup with no extraction schema, the content
produced by DataExtractor.extract contains Main Article and main content
but ALSO contains the Navigation text: the article branch fails the
50-character threshold, the body-children fallback keeps the nav text,
and removeNoise is never invoked by extract. -/
theorem extract_article_nav_keeps_navigation :
    (extract none docArticleNav "https://example.com" true "t0").content =
      "<h1>Main Article</h1><p>This is the main content.</p>" ++ "\n" ++
        "Navigation" ∧
    strContains (extract none docArticleNav "https://example.com" true "t0").content
      "Main Article" = true ∧
    strContains (extract none docArticleNav "https://example.com" true "t0").content
      "main content" = true ∧
    strContains (extract none docArticleNav "https://example.com" true "t0").content
      "Navigation" = true :=
  ⟨rfl, rfl, rfl, rfl⟩

/-- C4 counterexample: in the document whose title element holds a single
space and whose h1 holds Real Title, the title fallback chain returns the
whitespace-only title text instead of treating it as a miss and
continuing to the h1 step. -/
theorem title_chain_keeps_whitespace :
    extractTitle docBlankTitle = some " " ∧
    jsTrim " " = "" ∧
    textOfFirst docBlankTitle (.tag "h1") = "Real Title" ∧
    extractTitle docBlankTitle ≠ some "Real Title" ∧
    extractTitle docBlankTitle ≠ none :=
  ⟨rfl, rfl, rfl, by decide, by decide⟩

theorem chainSteps_ne_some_empty : ∀ l : List (Option String),
    chainSteps l ≠ some "" := by
  intro l
  induction l with
  | nil => exact fun h => by cases h
  | cons v rest ih =>
      cases v with
      | none => simpa [chainSteps, jsOr] using ih
      | some s =>
          by_cases hs : s = ""
          · simpa [chainSteps, jsOr, hs] using ih
          · simp [chainSteps, jsOr, hs]

theorem chainSteps_all_falsy : ∀ l : List (Option String),
    l.all stepFalsy = true → chainSteps l = none := by
  intro l
  induction l with
  | nil => intro _; rfl
  | cons v rest ih =>
      intro hall
      rw [List.all_cons] at hall
      have hv := (Bool.and_eq_true _ _).mp hall
      cases v with
      | none => simpa [chainSteps, jsOr] using ih hv.2
      | some s =>
          have hs : s = "" := by
            have := hv.1
            simpa [stepFalsy] using this
          simpa [chainSteps, jsOr, hs] using ih hv.2

/-- C4 amended: a fallback-chain step yielding an absent value or the
empty string is a miss and the chain continues; a step yielding
whitespace-only but non-empty text is a hit and is returned untrimmed;
when every step yields an absent or empty value the field is left unset
(undefined), and no chain ever yields the empty string. -/
theorem fallback_chains_empty_miss (doc : Node) :
    extractTitle doc ≠ some "" ∧
    extractAuthor doc ≠ some "" ∧
    extractPublishDate doc ≠ some "" ∧
    ((titleSteps doc).all stepFalsy = true → extractTitle doc = none) ∧
    ((authorSteps doc).all stepFalsy = true → extractAuthor doc = none) ∧
    ((dateSteps doc).all stepFalsy = true → extractPublishDate doc = none) ∧
    (∀ rest : List (Option String), chainSteps (some "" :: rest) = chainSteps rest) ∧
    (∀ rest : List (Option String), chainSteps (none :: rest) = chainSteps rest) :=
  ⟨chainSteps_ne_some_empty (titleSteps doc),
   chainSteps_ne_some_empty (authorSteps doc),
   chainSteps_ne_some_empty (dateSteps doc),
   fun h => chainSteps_all_falsy (titleSteps doc) h,
   fun h => chainSteps_all_falsy (authorSteps doc) h,
   fun h => chainSteps_all_falsy (dateSteps doc) h,
   fun rest => by simp [chainSteps, jsOr],
   fun rest => by simp [chainSteps, jsOr]⟩

/-- C4 witness: on the empty page every step of every chain misses and
all three fields are left unset. -/
theorem fallback_chains_empty_miss_witness :
    extractTitle docEmptyPage = none ∧
    extractAuthor docEmptyPage = none ∧
    extractPublishDate docEmptyPage = none :=
  ⟨(fallback_chains_empty_miss docEmptyPage).2.2.2.1 rfl,
   (fallback_chains_empty_miss docEmptyPage).2.2.2.2.1 rfl,
   (fallback_chains_empty_miss docEmptyPage).2.2.2.2.2.1 rfl⟩

/-- C6: scrapeBatch returns exactly one result per input URL, in input
order; the i-th result is the successful scrape of the i-th URL, or a
placeholder with empty content and the error message in its metadata,
so a per-URL failure never aborts the rest of the batch. -/
theorem scrapeBatch_per_url (scrape : String → Except String ScrapedData)
    (now : String) (urls : List String) :
    (scrapeBatch scrape now urls).length = urls.length ∧
    (∀ i, i < urls.length →
      (scrapeBatch scrape now urls).getD i dfltScraped =
        match scrape (urls.getD i "") with
        | .ok data => data
        | .error msg =>
            { url := urls.getD i "", content := "", timestamp := now,
              metadata := some [("error", MetaVal.str msg)] }) := by
  induction urls with
  | nil =>
      exact ⟨rfl, fun i hi => by simp at hi⟩
  | cons u rest ih =>
      refine ⟨?_, ?_⟩
      · show (scrapeBatch scrape now (u :: rest)).length = rest.length + 1
        cases hu : scrape u <;> simp [scrapeBatch, hu, ih.1]
      · intro i hi
        cases i with
        | zero => cases hu : scrape u <;> simp [scrapeBatch, hu]
        | succ i2 =>
            have hi2 : i2 < rest.length := by simpa using hi
            have := ih.2 i2 hi2
            cases hu : scrape u <;>
              simpa [scrapeBatch, hu] using this

/-- C6 witness: a two-URL batch in which the second URL fails still has
two results, the second being the placeholder for the failure. -/
theorem scrapeBatch_per_url_witness :
    (scrapeBatch demoScrape "t1" ["a", "b"]).getD 1 dfltScraped =
      { url := "b", content := "", timestamp := "t1",
        metadata := some [("error", MetaVal.str "net down")] } :=
  (scrapeBatch_per_url demoScrape "t1" ["a", "b"]).2 1 (by decide)

/-- C7: in the snapshot sequence the service code writes for one job
(creation in pending, then the two processJob writes), a snapshot with a
terminal status is never followed by a snapshot with a different status:
jobs never leave completed or failed. -/
theorem job_terminal_states_final (id url : String)
    (outcome : Except String ScrapedData) (t1 t2 : String) (i j : Nat)
    (hij : i ≤ j) (hj : j < (jobLifecycle id url outcome t1 t2).length)
    (hterm : terminalStatus
      (((jobLifecycle id url outcome t1 t2).getD i dfltJob).status) = true) :
    ((jobLifecycle id url outcome t1 t2).getD j dfltJob).status =
      ((jobLifecycle id url outcome t1 t2).getD i dfltJob).status := by
  have hlen : (jobLifecycle id url outcome t1 t2).length = 3 := by
    cases outcome <;> rfl
  rw [hlen] at hj
  have hi : i < 3 := by omega
  interval_cases i <;> interval_cases j <;>
    cases outcome <;>
      simp_all [jobLifecycle, processJobSnapshots, createJob, terminalStatus]

/-- C7 witness: a failed job stays failed at the end of its snapshot
sequence. -/
theorem job_terminal_states_final_witness :
    ((jobLifecycle "job1" "https://example.com" (Except.error "boom") "t1" "t2").getD
        2 dfltJob).status =
      ((jobLifecycle "job1" "https://example.com" (Except.error "boom") "t1" "t2").getD
        2 dfltJob).status :=
  job_terminal_states_final "job1" "https://example.com" (Except.error "boom")
    "t1" "t2" 2 2 (by omega) (by decide) (by decide)

theorem extractBySelector_none_of_no_match (doc : Node) (sel : Selector)
    (a : Option String) (h : selectAll sel doc = []) :
    extractBySelector doc sel a = none := by
  simp [extractBySelector, selectFirst, h]

theorem lookup_setKey_ne (m : List (String × MetaVal)) (k : String) (v : MetaVal)
    (n : String) (hne : k ≠ n) :
    (setKey m k v).lookup n = m.lookup n := by
  have hnk : (n == k) = false := beq_eq_false_iff_ne.mpr (Ne.symm hne)
  induction m with
  | nil => simp [setKey, List.lookup, hnk]
  | cons kv rest ih =>
      by_cases hk : kv.1 = k
      · simp [setKey, hk, List.lookup, hnk]
      · simp only [setKey, hk, if_false]
        by_cases hn : kv.1 = n <;> simp [List.lookup, hn, ih]

theorem customMetadata_lookup_none (doc : Node) (n : String) :
    ∀ (rules : List CustomRule) (m0 : List (String × MetaVal)),
      m0.lookup n = none →
      (∀ r2 ∈ rules, r2.name = n → selectAll r2.selector doc = []) →
      (customMetadata doc rules m0).lookup n = none := by
  intro rules
  induction rules with
  | nil => intro m0 h0 _; exact h0
  | cons r2 rest ih =>
      intro m0 h0 hall
      simp only [customMetadata]
      cases hv : extractBySelector doc r2.selector r2.attrName with
      | none =>
          exact ih m0 h0 (fun r3 h3 => hall r3 (List.mem_cons_of_mem r2 h3))
      | some v =>
          by_cases hn : r2.name = n
          · have hmatch := hall r2 (List.mem_cons_self r2 rest) hn
            rw [extractBySelector_none_of_no_match doc r2.selector r2.attrName hmatch]
              at hv
            cases hv
          · refine ih _ ?_ (fun r3 h3 => hall r3 (List.mem_cons_of_mem r2 h3))
            rw [lookup_setKey_ne m0 r2.name _ n hn]
            exact h0

/-- C9: a custom rule whose selector matches no element (and that is the
only rule carrying its metadata name) contributes no metadata entry at
all; a matching rule with a transform stores the transform applied to
the extracted string, and in particular the views rule with parseInt
over div class views 1234 stores the number 1234. -/
theorem custom_rules_semantics :
    (∀ (doc : Node) (rules : List CustomRule) (r : CustomRule),
      r ∈ rules →
      (∀ r2 ∈ rules, r2.name = r.name → selectAll r2.selector doc = []) →
      (customMetadata doc rules []).lookup r.name = none) ∧
    (∀ (doc : Node) (r : CustomRule) (f : String → MetaVal) (v : String),
      r.transform = some f →
      extractBySelector doc r.selector r.attrName = some v →
      customMetadata doc [r] [] = [(r.name, f v)]) ∧
    (extract (some schemaViews) docViews "https://example.com" true "t2").metadata =
      some [("views", MetaVal.num 1234)] := by
  refine ⟨?_, ?_, rfl⟩
  · intro doc rules r _ hall
    exact customMetadata_lookup_none doc r.name rules [] rfl hall
  · intro doc r f v hf hv
    simp only [customMetadata]
    rw [hv, hf]
    rfl

/-- C9 witness: the no-match rule named cat contributes no entry over
docViews, and the views transform rule evaluates to the numeric entry. -/
theorem custom_rules_semantics_witness :
    (customMetadata docViews [ruleMissing] []).lookup "cat" = none ∧
    customMetadata docViews [ruleViews] [] = [("views", MetaVal.num 1234)] := by
  constructor
  · exact custom_rules_semantics.1 docViews [ruleMissing] ruleMissing
      (List.mem_singleton.mpr rfl)
      (fun r2 h2 _ => by rw [List.mem_singleton.mp h2]; rfl)
  · exact custom_rules_semantics.2.1 docViews ruleViews jsParseInt "1234" rfl rfl

theorem addClient_mem (l : List Client) (c : Client) : c ∈ addClient l c := by
  by_cases h : c ∈ l
  · simp [addClient, h]
  · simp [addClient, h]

theorem addClient_nodup (l : List Client) (c : Client) (h : l.Nodup) :
    (addClient l c).Nodup := by
  by_cases hm : c ∈ l
  · simpa [addClient, hm] using h
  · have hc : l.contains c = false := by simpa using hm
    simp only [addClient, hc, Bool.false_eq_true, if_false]
    exact List.Nodup.append h (List.nodup_singleton c) (by simpa using hm)

theorem addClient_idem (l : List Client) (c : Client) :
    addClient (addClient l c) c = addClient l c := by
  by_cases h : c ∈ l <;> simp [addClient, h]

theorem subsOf_setEntry_self (s : Subs) (j : String) (v : List Client) :
    subsOf (setEntry s j v) j = v := by
  induction s with
  | nil => simp [setEntry, subsOf, List.lookup]
  | cons kv rest ih =>
      by_cases hk : kv.1 = j
      · simp [setEntry, hk, subsOf, List.lookup]
      · simp only [setEntry, hk, if_false]
        have hne : (j == kv.1) = false := beq_eq_false_iff_ne.mpr (Ne.symm hk)
        simpa [subsOf, List.lookup, hne] using ih

theorem subsOf_setEntry_ne (s : Subs) (j j2 : String) (v : List Client)
    (h : j2 ≠ j) : subsOf (setEntry s j v) j2 = subsOf s j2 := by
  have hne : (j2 == j) = false := beq_eq_false_iff_ne.mpr h
  induction s with
  | nil => simp [setEntry, subsOf, List.lookup, hne]
  | cons kv rest ih =>
      by_cases hk : kv.1 = j
      · subst hk
        simp [setEntry, subsOf, List.lookup, hne]
      · simp only [setEntry, hk, if_false]
        by_cases hk2 : kv.1 = j2
        · simp [subsOf, List.lookup, hk2]
        · have h2 : (j2 == kv.1) = false := beq_eq_false_iff_ne.mpr (Ne.symm hk2)
          simpa [subsOf, List.lookup, h2] using ih

theorem subsOf_map_filter (s : Subs) (j : String) (p : Client → Bool) :
    subsOf (s.map (fun kv => (kv.1, kv.2.filter p))) j = (subsOf s j).filter p := by
  induction s with
  | nil => rfl
  | cons kv rest ih =>
      by_cases hk : kv.1 = j
      · simp [subsOf, List.lookup, hk]
      · have h2 : (j == kv.1) = false := beq_eq_false_iff_ne.mpr (Ne.symm hk)
        simpa [subsOf, List.lookup, h2] using ih

theorem lookup_some_subsOf (s : Subs) (j : String) (l : List Client)
    (h : s.lookup j = some l) : subsOf s j = l := by
  simp [subsOf, h]

theorem handleMsg_nodup (s : Subs) (m : WsMsg)
    (h : ∀ j, (subsOf s j).Nodup) : ∀ j, (subsOf (handleMsg s m) j).Nodup := by
  intro j
  cases m with
  | subscribe j2 c =>
      by_cases hj : j = j2
      · subst hj
        rw [show handleMsg s (WsMsg.subscribe j c) =
              setEntry s j (addClient (subsOf s j) c) from rfl,
            subsOf_setEntry_self]
        exact addClient_nodup _ c (h j)
      · rw [show handleMsg s (WsMsg.subscribe j2 c) =
              setEntry s j2 (addClient (subsOf s j2) c) from rfl,
            subsOf_setEntry_ne s j2 j _ hj]
        exact h j
  | unsubscribe j2 c =>
      show (subsOf (match s.lookup j2 with
        | some l => setEntry s j2 (l.filter (fun x => x ≠ c))
        | none => s) j).Nodup
      cases hl : s.lookup j2 with
      | none => exact h j
      | some l =>
          by_cases hj : j = j2
          · subst hj
            rw [subsOf_setEntry_self]
            have hsub : subsOf s j = l := lookup_some_subsOf s j l hl
            exact hsub ▸ (h j).filter _
          · rw [subsOf_setEntry_ne s j2 j _ hj]
            exact h j
  | close c =>
      rw [show handleMsg s (WsMsg.close c) =
            s.map (fun kv => (kv.1, kv.2.filter (fun x => x ≠ c))) from rfl,
          subsOf_map_filter]
      exact (h j).filter _
  | invalid => exact h j

theorem foldl_handleMsg_nodup (msgs : List WsMsg) :
    ∀ s : Subs, (∀ j, (subsOf s j).Nodup) →
      ∀ j, (subsOf (msgs.foldl handleMsg s) j).Nodup := by
  induction msgs with
  | nil => intro s h; exact h
  | cons m rest ih =>
      intro s h
      exact ih (handleMsg s m) (handleMsg_nodup s m h)

theorem subsOf_subscribe_self (s : Subs) (j : String) (c : Client) :
    subsOf (handleMsg s (WsMsg.subscribe j c)) j = addClient (subsOf s j) c := by
  rw [show handleMsg s (WsMsg.subscribe j c) =
        setEntry s j (addClient (subsOf s j) c) from rfl,
      subsOf_setEntry_self]

theorem foldl_subscribe_replicate (j : String) (c : Client) :
    ∀ (n : Nat) (s : Subs),
      subsOf ((List.replicate (n + 1) (WsMsg.subscribe j c)).foldl handleMsg s) j =
        addClient (subsOf s j) c := by
  intro n
  induction n with
  | zero => intro s; simpa using subsOf_subscribe_self s j c
  | succ m ih =>
      intro s
      rw [List.replicate_succ, List.foldl_cons, ih (handleMsg s (WsMsg.subscribe j c)),
          subsOf_subscribe_self, addClient_idem]

/-- C10: after any prior message history and any positive number of
subscribe messages for a job id from one client, that client is in the
job's subscriber set exactly once, so a broadcast for the job delivers
the event to it exactly once (and in particular at most once). -/
theorem ws_subscribe_idempotent (msgs : List WsMsg) (j : String) (c : Client)
    (n : Nat) :
    (broadcastRecipients
        (handleMsgs (msgs ++ List.replicate (n + 1) (WsMsg.subscribe j c))) j).count
      c = 1 := by
  show ((subsOf (handleMsgs (msgs ++ List.replicate (n + 1) (WsMsg.subscribe j c))) j).count c) = 1
  rw [handleMsgs, List.foldl_append]
  rw [foldl_subscribe_replicate j c n (msgs.foldl handleMsg [])]
  have hnodup : (subsOf (msgs.foldl handleMsg []) j).Nodup :=
    foldl_handleMsg_nodup msgs [] (fun _ => List.nodup_nil) j
  exact List.count_eq_one_of_mem (addClient_nodup _ c hnodup) (addClient_mem _ c)
